import Mathlib

/-!
Verification of the ChzzkMusicQuizz game engine (`src/main.py`).

Python strings are modelled as `List Char` (`PyStr`).  `str.strip` is
`pyStrip` (drop leading and trailing whitespace), `str.lower` is `pyLower`
(ASCII case fold; the full Unicode folding of Python's `str.lower` is not
modelled, which is faithful for every string occurring in the catalog
examples and claims), `str.replace " " ""` is `despace`.
-/

namespace ChzzkQuiz

abbrev PyStr := List Char

def isWS (c : Char) : Bool := c.isWhitespace

/-- Python `str.lstrip()` with the default whitespace set. -/
def lstrip (s : PyStr) : PyStr := s.dropWhile isWS

/-- Python `str.rstrip()` with the default whitespace set. -/
def rstrip (s : PyStr) : PyStr := (s.reverse.dropWhile isWS).reverse

/-- Python `str.strip()`. -/
def pyStrip (s : PyStr) : PyStr := rstrip (lstrip s)

/-- ASCII case folding of a single character (`str.lower` restricted to ASCII). -/
def toLowerChar (c : Char) : Char :=
  if 'A' ≤ c ∧ c ≤ 'Z' then Char.ofNat (c.toNat + 32) else c

/-- Python `str.lower()` (ASCII fragment). -/
def pyLower (s : PyStr) : PyStr := s.map toLowerChar

/-- Python `str.replace(" ", "")`: remove every space character. -/
def despace (s : PyStr) : PyStr := s.filter (fun c => c ≠ ' ')

/-- The answer normalization used at both comparison sites in `main.py`
(lines 135-138 and 571-574): `strip` then `lower` then remove spaces. -/
def normalize (s : PyStr) : PyStr := despace (pyLower (pyStrip s))

/-- `unescape_string` (main.py lines 318-330): a backslash followed by any
character yields that character literally; a trailing lone backslash is kept. -/
def unescape_string : PyStr → PyStr
  | [] => []
  | '\\' :: c :: rest => c :: unescape_string rest
  | c :: rest => c :: unescape_string rest

/-- Loop body of `parse_escaped_list` (main.py lines 333-360): `cur` is the
`current_item` buffer accumulated so far. -/
def parse_escaped_list_aux : PyStr → PyStr → List PyStr
  | [], cur =>
      let item := pyStrip cur
      if item = [] then [] else [item]
  | '\\' :: c :: rest, cur => parse_escaped_list_aux rest (cur ++ [c])
  | ',' :: rest, cur =>
      let item := pyStrip cur
      (if item = [] then [] else [item]) ++ parse_escaped_list_aux rest []
  | c :: rest, cur => parse_escaped_list_aux rest (cur ++ [c])

/-- `parse_escaped_list` (main.py lines 333-360). -/
def parse_escaped_list (content : PyStr) : List PyStr :=
  parse_escaped_list_aux content []

example : parse_escaped_list "a\\, b, c".data = ["a, b".data, "c".data] := by decide

/-! ## Catalog loading (main.py lines 363-412) -/

/-- Python `int(s)` on a string: optional surrounding whitespace, optional
sign, then decimal digits.  (PEP 515 underscore grouping is not modelled;
no claim involves it.)  `none` models a raised `ValueError`. -/
def decDigitsVal (ds : PyStr) : Option Nat :=
  if ds ≠ [] ∧ ds.all (fun c => c.isDigit) then
    some (ds.foldl (fun n c => 10 * n + (c.toNat - 48)) 0)
  else none

def pyInt (s : PyStr) : Option Int :=
  match pyStrip s with
  | '-' :: rest => (decDigitsVal rest).map (fun n => -(n : Int))
  | '+' :: rest => (decDigitsVal rest).map (fun n => (n : Int))
  | ds => (decDigitsVal ds).map (fun n => (n : Int))

/-- The `start_time` parse in `load_songs` (lines 377-381):
`int(row.get("start_time", "0"))` with `ValueError`/`TypeError` caught to 0.
`none` stands for a missing column (the `"0"` default, which parses to 0)
or a `None` cell (a `TypeError`, caught to 0): both yield 0. -/
def parse_start_time (field : Option PyStr) : Int :=
  match field with
  | none => 0
  | some s => (pyInt s).getD 0

/-- Python `title_str.startswith("[")`. -/
def startsWithLB (s : PyStr) : Bool :=
  match s with | '[' :: _ => true | _ => false

/-- Python `title_str.endswith("]")`. -/
def endsWithRB (s : PyStr) : Bool :=
  match s.getLast? with | some ']' => true | _ => false

/-- The `title` field parse in `load_songs` (lines 386-396): a bracketed
string is split with `parse_escaped_list` on its inside; a bare string is
a one-element list of its unescaped strip, or empty when it strips empty. -/
def parseTitleField (title_str : PyStr) : List PyStr :=
  if startsWithLB title_str && endsWithRB title_str then
    parse_escaped_list (title_str.drop 1).dropLast
  else if pyStrip title_str = [] then []
  else [unescape_string (pyStrip title_str)]

structure Song where
  id : Nat
  title : List PyStr
  youtube_url : PyStr
  artist : PyStr
  genre : PyStr
  hint : PyStr
  start_time : Int
  deriving DecidableEq, Repr

def defaultSong : Song :=
  { id := 0, title := [], youtube_url := [], artist := [], genre := [],
    hint := [], start_time := 0 }

/-- One row of the CSV as `csv.DictReader` hands it to the loop body:
`none` in a field is a missing column (`row.get` default applies). -/
structure CsvRow where
  title : Option PyStr
  youtube_url : Option PyStr
  artist : Option PyStr
  genre : Option PyStr
  hint : Option PyStr
  start_time : Option PyStr
  deriving DecidableEq, Repr

/-- The `Song(...)` built for row `idx` (lines 376-406). -/
def songOfRow (idx : Nat) (row : CsvRow) : Song :=
  { id := idx,
    title := parseTitleField (row.title.getD []),
    youtube_url := row.youtube_url.getD [],
    artist := row.artist.getD [],
    genre := row.genre.getD [],
    hint := row.hint.getD [],
    start_time := parse_start_time row.start_time }

/-- The row loop of `load_songs` (lines 374-412).  Reading the next row from
the csv iterator can raise (decode or csv error), modelled by a `none` entry
in the stream: the `except` clause then returns 0 while the global
`songs_data` keeps the songs appended so far.  Result: (final `songs_data`,
returned count). -/
def load_songs_aux (acc : List Song) (idx : Nat) :
    List (Option CsvRow) → List Song × Nat
  | [] => (acc, acc.length)
  | none :: _ => (acc, 0)
  | some row :: rest => load_songs_aux (acc ++ [songOfRow idx row]) (idx + 1) rest

/-- `load_songs` (lines 363-412): `songs_data` is reset to `[]` and then
rows are appended one at a time. -/
def load_songs (rows : List (Option CsvRow)) : List Song × Nat :=
  load_songs_aux [] 0 rows

/-! ## Game state and operations (main.py lines 273-656) -/

structure Player where
  username : PyStr
  score : Int
  deriving DecidableEq, Repr

structure GameState where
  current_song_index : Nat
  players : List Player
  is_playing : Bool
  show_hint : Bool
  current_winners : List PyStr
  song_order : List Nat
  played_count : Nat
  showing_answer : Bool
  deriving DecidableEq, Repr

/-- The module-level initial `game_state` (lines 304-313). -/
def initState : GameState :=
  { current_song_index := 0, players := [], is_playing := false,
    show_hint := false, current_winners := [], song_order := [],
    played_count := 0, showing_answer := false }

/-- Rank-based points (lines 142-150 and 578-586): ranks 0,1,2 all score 1. -/
def pointsForRank (rank : Nat) : Int :=
  if rank = 0 then 1 else if rank = 1 then 1 else if rank = 2 then 1 else 0

/-- The player-score update loop (lines 152-161 and 588-597): add to the
first player with this username, else append a new `Player`. -/
def addScore : List Player → PyStr → Int → List Player
  | [], u, p => [{ username := u, score := p }]
  | pl :: rest, u, p =>
      if pl.username = u then { username := pl.username, score := pl.score + p } :: rest
      else pl :: addScore rest u p

/-- The inline answer evaluator (lines 570-575): the guess matches when its
normalized form equals the normalized form of any accepted title. -/
def matchesAny (guess : PyStr) (titles : List PyStr) : Bool :=
  titles.any (fun t => normalize guess = normalize t)

/-- `handle_game_answer` (lines 104-167), the chat-routed guess path.
Pure state transformer: the chat handler returns nothing. -/
def handle_game_answer (songs : List Song) (st : GameState)
    (username answer : PyStr) : GameState :=
  if st.is_playing = false then st
  else if st.showing_answer then st
  else if songs.length ≤ st.current_song_index then st
  else
    let answer := pyStrip answer
    if answer = [] then st
    else
      let current_song := songs.getD st.current_song_index defaultSong
      if 3 ≤ st.current_winners.length then st
      else if username ∈ st.current_winners then st
      else
        let answer_normalized := despace (pyLower answer)
        let is_correct := current_song.title.any
          (fun t => answer_normalized = normalize t)
        if is_correct then
          let rank := st.current_winners.length
          { st with
            players := addScore st.players username (pointsForRank rank),
            current_winners := st.current_winners ++ [username] }
        else st

def msgShowingAnswer : PyStr := "정답 페이지 중입니다".data
def msgThreeWinners : PyStr := "이미 3명의 정답자가 나왔습니다".data
def msgAlreadyWon : PyStr := "이미 정답을 맞췄습니다".data

/-- The JSON body `check_answer` returns: `message` is `none` on the final
evaluated return (line 602), which carries no message key. -/
structure CheckResult where
  is_correct : Bool
  username : PyStr
  answer : PyStr
  message : Option PyStr
  deriving DecidableEq, Repr

/-- `check_answer` (lines 532-602), the API guess path.  `none` models the
HTTP 404 raised when `current_song_index` is out of range; otherwise the
response body and the new game state. -/
def check_answer (songs : List Song) (st : GameState)
    (username answer : PyStr) : Option (CheckResult × GameState) :=
  if songs.length ≤ st.current_song_index then none
  else if st.showing_answer then
    some ({ is_correct := false, username := username, answer := answer,
            message := some msgShowingAnswer }, st)
  else if 3 ≤ st.current_winners.length then
    some ({ is_correct := false, username := username, answer := answer,
            message := some msgThreeWinners }, st)
  else if username ∈ st.current_winners then
    some ({ is_correct := false, username := username, answer := answer,
            message := some msgAlreadyWon }, st)
  else
    let current_song := songs.getD st.current_song_index defaultSong
    let answer_normalized := despace (pyLower (pyStrip answer))
    let is_correct := current_song.title.any
      (fun t => answer_normalized = normalize t)
    let st' :=
      if is_correct then
        { st with
          players := addScore st.players username
            (pointsForRank st.current_winners.length),
          current_winners := st.current_winners ++ [username] }
      else st
    some ({ is_correct := is_correct, username := username, answer := answer,
            message := none }, st')

/-- `start_game` (lines 481-498).  `random.shuffle` is non-deterministic, so
the shuffled `song_indices` list is a parameter; theorems that need it to be
a permutation of `range (songs.length)` hypothesise that. -/
def start_game (song_indices : List Nat) (st : GameState) : GameState :=
  { st with
    song_order := song_indices,
    played_count := 0,
    current_song_index := song_indices.headD 0,
    players := [],
    is_playing := true,
    show_hint := false,
    current_winners := [],
    showing_answer := false }

/-- `next_song` (lines 501-522): returns the new state and the `message`
field of the response. -/
def next_song (st : GameState) : GameState × PyStr :=
  let st := { st with
    played_count := st.played_count + 1,
    show_hint := false,
    current_winners := [],
    showing_answer := false }
  if st.song_order.length ≤ st.played_count then
    ({ st with is_playing := false }, "Game finished".data)
  else
    ({ st with current_song_index := st.song_order.getD st.played_count 0 },
     "Next song".data)

/-- `show_hint` (lines 525-529). -/
def show_hint_op (st : GameState) : GameState :=
  { st with show_hint := true }

/-- `reset_scores` (lines 651-656). -/
def reset_scores (st : GameState) : GameState :=
  { st with players := [], current_winners := [] }

/-- The response body of `get_current_song_answer`: the song's fields plus
the joined winner string. -/
structure AnswerView where
  song : Song
  winner : PyStr
  deriving DecidableEq, Repr

/-- `", ".join(winners)` (the `if`/`else ""` of line 464-466 coincides with
`intercalate` on the empty list). -/
def joinWinners (ws : List PyStr) : PyStr := List.intercalate ", ".data ws

/-- `get_current_song_answer` (lines 452-467): 404 (`none`) when the index
is out of range; otherwise sets `showing_answer := true` and returns the
full song with the winners string. -/
def get_current_song_answer (songs : List Song) (st : GameState) :
    Option (AnswerView × GameState) :=
  if songs.length ≤ st.current_song_index then none
  else
    let st' := { st with showing_answer := true }
    some ({ song := songs.getD st.current_song_index defaultSong,
            winner := joinWinners st.current_winners }, st')

/-! ## String lemmas -/

theorem dropWhile_ws_idem (l : PyStr) :
    (l.dropWhile isWS).dropWhile isWS = l.dropWhile isWS := by
  induction l with
  | nil => rfl
  | cons c t ih =>
      by_cases h : isWS c
      · simp [List.dropWhile_cons, h, ih]
      · simp [List.dropWhile_cons, h]

theorem dropWhile_head_false {p : Char → Bool} :
    ∀ {l : PyStr} {c : Char} {t : PyStr}, l.dropWhile p = c :: t → p c = false := by
  intro l
  induction l with
  | nil => intro c t h; simp at h
  | cons d s' ih =>
      intro c t h
      by_cases hd : p d
      · exact ih (by simpa [List.dropWhile_cons, hd] using h)
      · rw [List.dropWhile_cons_of_neg (by simpa using hd)] at h
        cases h
        simpa using hd

theorem lstrip_head {s : PyStr} {c : Char} {t : PyStr}
    (h : lstrip s = c :: t) : isWS c = false :=
  dropWhile_head_false h

theorem dropWhile_ws_append_singleton {xs : PyStr} {c : Char}
    (hc : isWS c = false) :
    (xs ++ [c]).dropWhile isWS = xs.dropWhile isWS ++ [c] := by
  induction xs with
  | nil => simp [List.dropWhile_cons, hc]
  | cons x xs' ih =>
      by_cases hx : isWS x
      · simp [List.dropWhile_cons, hx, ih]
      · simp [List.dropWhile_cons, hx]

theorem rstrip_nil : rstrip [] = [] := rfl

theorem rstrip_cons {c : Char} (u : PyStr) (hc : isWS c = false) :
    rstrip (c :: u) = c :: rstrip u := by
  simp [rstrip, dropWhile_ws_append_singleton hc]

theorem rstrip_idem (s : PyStr) : rstrip (rstrip s) = rstrip s := by
  simp [rstrip, dropWhile_ws_idem]

theorem lstrip_cons_of_not_ws {c : Char} (u : PyStr) (hc : isWS c = false) :
    lstrip (c :: u) = c :: u := by
  simp [lstrip, List.dropWhile_cons, hc]

/-- A nonempty stripped string starts with a non-whitespace character. -/
theorem pyStrip_head (s : PyStr) :
    pyStrip s = [] ∨ ∃ c t, pyStrip s = c :: t ∧ isWS c = false := by
  unfold pyStrip
  cases hl : lstrip s with
  | nil => left; rfl
  | cons c t =>
      right
      have hc := lstrip_head hl
      exact ⟨c, rstrip t, by rw [rstrip_cons t hc], hc⟩

theorem pyStrip_idem (s : PyStr) : pyStrip (pyStrip s) = pyStrip s := by
  rcases pyStrip_head s with h | ⟨c, t, h, hc⟩
  · rw [h]; rfl
  · have hr : rstrip (c :: t) = c :: t := by
      have h1 : rstrip (rstrip (lstrip s)) = rstrip (lstrip s) := rstrip_idem _
      have h2 : rstrip (lstrip s) = c :: t := h
      rw [h2] at h1; exact h1
    rw [h]
    show rstrip (lstrip (c :: t)) = c :: t
    rw [lstrip_cons_of_not_ws _ hc]
    exact hr

/-- A nonempty right-stripped string ends with a non-whitespace character. -/
theorem rstrip_getLast {s : PyStr} (h : rstrip s ≠ []) :
    ∃ c, (rstrip s).getLast? = some c ∧ isWS c = false := by
  unfold rstrip at *
  cases hd : (s.reverse).dropWhile isWS with
  | nil => rw [hd] at h; simp at h
  | cons c t =>
      refine ⟨c, ?_, dropWhile_head_false hd⟩
      simp [List.getLast?_concat]

theorem pyStrip_getLast {s : PyStr} (h : pyStrip s ≠ []) :
    ∃ c, (pyStrip s).getLast? = some c ∧ isWS c = false :=
  rstrip_getLast h

/-- A non-whitespace member of a string survives `lstrip`. -/
theorem mem_lstrip {c : Char} {s : PyStr} (hm : c ∈ s) (hc : isWS c = false) :
    c ∈ lstrip s := by
  induction s with
  | nil => simp at hm
  | cons d s' ih =>
      by_cases hd : isWS d
      · rcases List.mem_cons.mp hm with rfl | hm'
        · rw [hd] at hc; cases hc
        · simpa [lstrip, List.dropWhile_cons, hd] using ih hm'
      · simpa [lstrip, List.dropWhile_cons, hd] using hm

/-- A non-whitespace member of a string survives `rstrip`. -/
theorem mem_rstrip {c : Char} {s : PyStr} (hm : c ∈ s) (hc : isWS c = false) :
    c ∈ rstrip s := by
  unfold rstrip
  rw [List.mem_reverse]
  exact mem_lstrip (List.mem_reverse.mpr hm) hc

theorem mem_pyStrip {c : Char} {s : PyStr} (hm : c ∈ s) (hc : isWS c = false) :
    c ∈ pyStrip s :=
  mem_rstrip (mem_lstrip hm hc) hc

theorem char_ofNat_toNat {n : Nat} (h : n.isValidChar) :
    (Char.ofNat n).toNat = n := by
  simp only [Char.ofNat, h, dif_pos, Char.ofNatAux, Char.toNat]
  rfl

/-- ASCII case folding maps non-space characters to non-space characters. -/
theorem toLowerChar_ne_space {c : Char} (hc : c ≠ ' ') : toLowerChar c ≠ ' ' := by
  unfold toLowerChar
  split
  · next h =>
      intro habs
      have h65 : 65 ≤ c.toNat := h.1
      have h90 : c.toNat ≤ 90 := h.2
      have hvalid : (c.toNat + 32).isValidChar := by
        have : c.toNat + 32 < 0xd800 := by omega
        exact Or.inl this
      have heq : (Char.ofNat (c.toNat + 32)).toNat = c.toNat + 32 :=
        char_ofNat_toNat hvalid
      rw [habs] at heq
      have h32 : (' ' : Char).toNat = 32 := rfl
      omega
  · exact hc

/-- A string containing a non-whitespace character has a nonempty
normalized form. -/
theorem normalize_ne_nil {c : Char} {t : PyStr} (hm : c ∈ t)
    (hc : isWS c = false) : normalize t ≠ [] := by
  have h1 : c ∈ pyStrip t := mem_pyStrip hm hc
  have h2 : toLowerChar c ∈ pyLower (pyStrip t) := List.mem_map_of_mem _ h1
  have hcs : c ≠ ' ' := by
    intro h; rw [h] at hc; simp [isWS] at hc
  have h3 : toLowerChar c ∈ despace (pyLower (pyStrip t)) := by
    unfold despace
    exact List.mem_filter.mpr ⟨h2, decide_eq_true (toLowerChar_ne_space hcs)⟩
  intro hnil
  rw [show normalize t = despace (pyLower (pyStrip t)) from rfl] at hnil
  rw [hnil] at h3
  simp at h3

theorem getLast?_cons_ne {c : Char} {l : PyStr} (h : l ≠ []) :
    (c :: l).getLast? = l.getLast? := by
  cases l with
  | nil => cases h rfl
  | cons d t => simp [List.getLast?_cons_cons]

/-- `unescape_string` of a nonempty string is nonempty and ends in the same
character (an escape can only change non-final characters' interpretation). -/
theorem unescape_getLast : ∀ {s : PyStr}, s ≠ [] →
    unescape_string s ≠ [] ∧ (unescape_string s).getLast? = s.getLast? := by
  intro s
  induction s using unescape_string.induct with
  | case1 => intro h; cases h rfl
  | case2 c rest ih =>
      intro _
      rcases Decidable.em (rest = []) with hr | hr
      · subst hr
        exact ⟨by simp [unescape_string], by rfl⟩
      · obtain ⟨h1, h2⟩ := ih hr
        refine ⟨by simp [unescape_string], ?_⟩
        rw [show unescape_string ('\\' :: c :: rest) = c :: unescape_string rest
          from rfl]
        rw [getLast?_cons_ne h1, h2,
          getLast?_cons_ne (show (c :: rest : PyStr) ≠ [] by simp),
          getLast?_cons_ne hr]
  | case3 c rest h ih =>
      intro _
      rcases Decidable.em (rest = []) with hr | hr
      · subst hr
        have hu : unescape_string [c] = [c] := by simp [unescape_string]
        exact ⟨by simp [hu], by simp [hu]⟩
      · obtain ⟨h1, h2⟩ := ih hr
        have hu : unescape_string (c :: rest) = c :: unescape_string rest := by
          cases rest with
          | nil => cases hr rfl
          | cons d t =>
              by_cases hb : c = '\\'
              · exact (h d t hb rfl).elim
              · simp [unescape_string, hb]
        refine ⟨by simp [hu], ?_⟩
        rw [hu, getLast?_cons_ne h1, h2, getLast?_cons_ne hr]

/-- Every item the escaped-list scanner emits is a nonempty stripped string. -/
theorem parse_escaped_list_aux_mem :
    ∀ (l cur : PyStr) {x : PyStr}, x ∈ parse_escaped_list_aux l cur →
      ∃ c0, x = pyStrip c0 ∧ x ≠ [] := by
  intro l cur
  induction l, cur using parse_escaped_list_aux.induct with
  | case1 cur item =>
      rename_i hnil
      intro x hx
      simp only [parse_escaped_list_aux] at hx
      rw [if_pos hnil] at hx
      simp at hx
  | case2 cur item =>
      rename_i hne
      intro x hx
      simp only [parse_escaped_list_aux] at hx
      rw [if_neg hne] at hx
      rw [List.mem_singleton] at hx
      exact ⟨cur, hx, hx ▸ hne⟩
  | case3 c rest cur ih =>
      intro x hx
      exact ih hx
  | case4 rest cur ih =>
      intro x hx
      simp only [parse_escaped_list_aux, List.mem_append] at hx
      rcases hx with hx | hx
      · split at hx
        · simp at hx
        · next hne =>
            rw [List.mem_singleton] at hx
            exact ⟨cur, hx, hx ▸ hne⟩
      · exact ih hx
  | case5 c rest cur h1 h2 ih =>
      intro x hx
      have he : parse_escaped_list_aux (c :: rest) cur =
          parse_escaped_list_aux rest (cur ++ [c]) := by
        by_cases hb : c = '\\'
        · cases rest with
          | nil =>
              subst hb
              simp [parse_escaped_list_aux]
          | cons d t => exact (h1 d t hb rfl).elim
        · by_cases hcm : c = ','
          · exact (h2 hcm).elim
          · simp [parse_escaped_list_aux, hb, hcm]
      rw [he] at hx
      exact ih hx

theorem parse_escaped_list_mem {s x : PyStr} (h : x ∈ parse_escaped_list s) :
    pyStrip x = x ∧ x ≠ [] := by
  obtain ⟨c0, rfl, hne⟩ := parse_escaped_list_aux_mem s [] h
  exact ⟨pyStrip_idem c0, hne⟩

/-- Every title the catalog loader produces has a nonempty normalized form,
so an empty normalized guess can never equal one of them. -/
theorem parseTitleField_normalize_ne_nil {raw t : PyStr}
    (h : t ∈ parseTitleField raw) : normalize t ≠ [] := by
  unfold parseTitleField at h
  split at h
  · obtain ⟨hps, hne⟩ := parse_escaped_list_mem h
    rcases pyStrip_head t with h0 | ⟨c, t', hct, hc⟩
    · rw [hps] at h0; exact absurd h0 hne
    · rw [hps] at hct
      exact normalize_ne_nil (hct ▸ List.mem_cons_self c t') hc
  · split at h
    · simp at h
    · next hps =>
        rw [List.mem_singleton] at h
        obtain ⟨c, hlast, hc⟩ := pyStrip_getLast hps
        obtain ⟨hne, hlast'⟩ := unescape_getLast hps
        have hcm : c ∈ unescape_string (pyStrip raw) :=
          List.mem_of_mem_getLast? (hlast' ▸ hlast)
        exact normalize_ne_nil (h ▸ hcm) hc

theorem load_songs_aux_titles {P : Song → Prop}
    (hrow : ∀ idx row, P (songOfRow idx row)) :
    ∀ (rows : List (Option CsvRow)) (acc : List Song) (idx : Nat),
      (∀ s ∈ acc, P s) → ∀ s ∈ (load_songs_aux acc idx rows).1, P s := by
  intro rows
  induction rows with
  | nil => intro acc idx hacc s hs; exact hacc s hs
  | cons r rest ih =>
      intro acc idx hacc s hs
      cases r with
      | none => exact hacc s hs
      | some row =>
          refine ih (acc ++ [songOfRow idx row]) (idx + 1) ?_ s hs
          intro s' hs'
          rcases List.mem_append.mp hs' with h | h
          · exact hacc s' h
          · rw [List.mem_singleton] at h
            exact h ▸ hrow idx row

/-- No catalog the loader can produce contains a title whose normalized
form is empty. -/
theorem load_songs_titles (rows : List (Option CsvRow)) :
    ∀ s ∈ (load_songs rows).1, ∀ t ∈ s.title, normalize t ≠ [] := by
  refine load_songs_aux_titles ?_ rows [] 0 (by simp)
  intro idx row t ht
  exact parseTitleField_normalize_ne_nil ht

/-! ## Characterizations of the guess paths -/

theorem pointsForRank_eq_one {r : Nat} (h : r < 3) : pointsForRank r = 1 := by
  interval_cases r <;> rfl

/-- `handle_game_answer` either leaves the state unchanged, or (when every
guard passes and the guess is correct) awards one point and appends the
username to the winners. -/
theorem handle_game_answer_cases (songs : List Song) (st : GameState)
    (u a : PyStr) :
    handle_game_answer songs st u a = st ∨
    (st.is_playing = true ∧ st.showing_answer = false ∧
     st.current_song_index < songs.length ∧ pyStrip a ≠ [] ∧
     st.current_winners.length < 3 ∧ u ∉ st.current_winners ∧
     handle_game_answer songs st u a =
       { st with players := addScore st.players u 1,
                 current_winners := st.current_winners ++ [u] }) := by
  simp only [handle_game_answer]
  split_ifs with h1 h2 h3 h4 h5 h6 h7
  · exact Or.inl rfl
  · exact Or.inl rfl
  · exact Or.inl rfl
  · exact Or.inl rfl
  · exact Or.inl rfl
  · exact Or.inl rfl
  · right
    refine ⟨by simpa using h1, by simpa using h2, by omega, h4, by omega, h6, ?_⟩
    rw [pointsForRank_eq_one (by omega)]
  · exact Or.inl rfl

/-- The guards under which `handle_game_answer` is guaranteed to do
nothing. -/
theorem handle_game_answer_noop (songs : List Song) (st : GameState)
    (u a : PyStr)
    (h : st.is_playing = false ∨ st.showing_answer = true ∨
      songs.length ≤ st.current_song_index ∨ pyStrip a = [] ∨
      3 ≤ st.current_winners.length ∨ u ∈ st.current_winners) :
    handle_game_answer songs st u a = st := by
  rcases handle_game_answer_cases songs st u a with he | ⟨h1, h2, h3, h4, h5, h6, _⟩
  · exact he
  · rcases h with h | h | h | h | h | h
    · rw [h1] at h; cases h
    · rw [h2] at h; cases h
    · omega
    · exact absurd h h4
    · omega
    · exact absurd h h6

/-- `check_answer`: either 404 (`none`), or a response with the state
unchanged, or (when every guard passes and the guess is correct) one point
awarded and the username appended to the winners. -/
theorem check_answer_cases (songs : List Song) (st : GameState)
    (u a : PyStr) :
    (songs.length ≤ st.current_song_index ∧ check_answer songs st u a = none) ∨
    (∃ r, check_answer songs st u a = some (r, st) ∧ r.is_correct = false) ∨
    (st.current_song_index < songs.length ∧ st.showing_answer = false ∧
     st.current_winners.length < 3 ∧ u ∉ st.current_winners ∧
     ((songs.getD st.current_song_index defaultSong).title.any
       (fun t => despace (pyLower (pyStrip a)) = normalize t)) = true ∧
     check_answer songs st u a =
       some ({ is_correct := true, username := u, answer := a, message := none },
         { st with players := addScore st.players u 1,
                   current_winners := st.current_winners ++ [u] })) := by
  simp only [check_answer]
  split_ifs with h1 h2 h3 h4 hc
  · exact Or.inl ⟨h1, rfl⟩
  · exact Or.inr (Or.inl ⟨_, rfl, rfl⟩)
  · exact Or.inr (Or.inl ⟨_, rfl, rfl⟩)
  · exact Or.inr (Or.inl ⟨_, rfl, rfl⟩)
  · right; right
    refine ⟨by omega, by simpa using h2, by omega, h4, hc, ?_⟩
    rw [pointsForRank_eq_one (by omega)]
    simp [hc]
    simpa using hc
  · exact Or.inr (Or.inl ⟨_, rfl, by simpa using hc⟩)

/-! ## The spec's phase, and state lemmas -/

inductive Phase
  | Idle
  | Playing
  | RevealingAnswer
  | Finished
  deriving DecidableEq, Repr

/-- Modelled from the spec: §4.5's `phase` is not a stored field of the code's
`GameState`; it is the spec's reading of the flags.  `Playing` and
`RevealingAnswer` when the playing flag is set, split by the answer-page
flag; `Idle` for the pristine state with no play order and nothing played;
`Finished` otherwise. -/
def phase (st : GameState) : Phase :=
  if st.is_playing then
    (if st.showing_answer then Phase.RevealingAnswer else Phase.Playing)
  else if st.song_order = [] ∧ st.played_count = 0 then Phase.Idle
  else Phase.Finished

theorem next_song_winners (st : GameState) :
    (next_song st).1.current_winners = [] := by
  simp only [next_song]
  split <;> rfl

theorem get_current_song_answer_state (songs : List Song) (st : GameState)
    {v : AnswerView} {st' : GameState}
    (h : get_current_song_answer songs st = some (v, st')) :
    st' = { st with showing_answer := true } := by
  unfold get_current_song_answer at h
  split at h
  · cases h
  · rw [Option.some.injEq, Prod.mk.injEq] at h
    exact h.2.symm

/-! ## Concrete fixtures used by witnesses and counterexamples -/

def songDyn : Song := { defaultSong with title := ["Dynamite".data] }

def oneSongFinished : GameState := (next_song (start_game [0] initState)).1

/-- A `Song` value whose only accepted answer is a single space; the loader
never produces such a song, but the `check_answer` endpoint evaluates
whatever list it is given. -/
def spaceTitleSong : Song := { defaultSong with title := [" ".data] }

def playingState : GameState := { initState with is_playing := true }

def rowA : CsvRow :=
  { title := some "A".data, youtube_url := none, artist := none,
    genre := none, hint := none, start_time := none }

def rowB : CsvRow :=
  { title := some "B".data, youtube_url := none, artist := none,
    genre := none, hint := none, start_time := some "7".data }

def rowNeg : CsvRow :=
  { title := some "A".data, youtube_url := none, artist := none,
    genre := none, hint := none, start_time := some "-5".data }

/-! ## The claims -/

/-- C3: the answer evaluator returns true iff some accepted entry's
normalized form (strip, lowercase, remove spaces) equals the guess's;
matching is exact on normalized forms — "dynamites" does not match
"Dynamite", while " dy na mite " does.  The first conjunct records that
`matchesAny` is literally the comparison both guess handlers inline. -/
theorem C3_matches_iff (guess : PyStr) (titles : List PyStr) :
    (∀ (a : PyStr) (ts : List PyStr),
      (ts.any (fun t => despace (pyLower (pyStrip a)) = normalize t)) =
        matchesAny a ts) ∧
    (matchesAny guess titles = true ↔
      ∃ t ∈ titles, normalize guess = normalize t) ∧
    matchesAny "Dynamite".data ["다이너마이트".data, "Dynamite".data] = true ∧
    matchesAny " dy na mite ".data ["다이너마이트".data, "Dynamite".data] = true ∧
    matchesAny "dynamites".data ["다이너마이트".data, "Dynamite".data] = false := by
  refine ⟨fun a ts => rfl, ?_, by decide, by decide, by decide⟩
  simp [matchesAny]

/-- C4: the answers field is split on unescaped commas by a single-pass
scanner in which a backslash makes the next character literal, and empty
trimmed entries are dropped: `[a\, b, c]` gives "a, b" and "c", bare
`foo\, bar` gives one answer with a literal comma, `[다이너마이트, Dynamite]`
gives exactly two answers; every emitted item is nonempty (and trimmed). -/
theorem C4_answers_parsing (s x : PyStr) :
    parseTitleField "[a\\, b, c]".data = ["a, b".data, "c".data] ∧
    parseTitleField "foo\\, bar".data = ["foo, bar".data] ∧
    parseTitleField "[다이너마이트, Dynamite]".data =
      ["다이너마이트".data, "Dynamite".data] ∧
    (x ∈ parse_escaped_list s → pyStrip x = x ∧ x ≠ []) :=
  ⟨by decide, by decide, by decide, fun h => parse_escaped_list_mem h⟩

/-- C9 counterexample: a `start_time` cell of "-5" parses successfully to
the negative integer -5, so the loaded song's start offset is not
non-negative as the claim states. -/
theorem C9_counterexample :
    (songOfRow 0 rowNeg).start_time = -5 ∧
    (songOfRow 0 rowNeg).start_time < 0 := by decide

/-- C9 amended: `start_time` is parsed with `int()`; a missing or unparsable
value yields 0 and never an error, but a parsable negative value is kept,
so the field is an integer that may be negative. -/
theorem C9_start_time_parse (idx : Nat) (row : CsvRow) :
    (songOfRow idx row).start_time = parse_start_time row.start_time ∧
    parse_start_time none = 0 ∧
    (∀ s, pyInt s = none → parse_start_time (some s) = 0) ∧
    (∀ s n, pyInt s = some n → parse_start_time (some s) = n) ∧
    parse_start_time (some "-5".data) = -5 ∧
    parse_start_time (some "abc".data) = 0 ∧
    parse_start_time (some "".data) = 0 ∧
    parse_start_time (some " 37 ".data) = 37 := by
  refine ⟨rfl, rfl, ?_, ?_, by decide, by decide, by decide, by decide⟩
  · intro s h
    simp [parse_start_time, h]
  · intro s n h
    simp [parse_start_time, h]

/-- C10 counterexample: `next_song` on the Idle initial state is not
rejected as an invalid transition; it silently mutates the state
(`played_count` becomes 1) and reports the ordinary "Game finished"
message. -/
theorem C10_counterexample :
    phase initState = Phase.Idle ∧
    next_song initState =
      ({ initState with played_count := 1 }, "Game finished".data) ∧
    (next_song initState).1 ≠ initState := by decide

/-- C10 amended: `next_song` while Idle performs the normal advance
bookkeeping — increments `played_count`, clears the hint, winners and
answer-page flags — finds the empty play order exhausted, keeps
`is_playing` false and returns a "Game finished" response; no
invalid-transition condition exists in the code. -/
theorem C10_next_while_idle (st : GameState) (h : phase st = Phase.Idle) :
    next_song st =
      ({ st with
         played_count := st.played_count + 1,
         show_hint := false,
         current_winners := [],
         showing_answer := false,
         is_playing := false },
       "Game finished".data) := by
  have horder : st.song_order = [] := by
    by_cases h1 : st.is_playing
    · rw [phase, if_pos h1] at h
      split at h <;> simp at h
    · rw [phase, if_neg h1] at h
      by_cases h2 : st.song_order = [] ∧ st.played_count = 0
      · exact h2.1
      · rw [if_neg h2] at h
        simp at h
  simp only [next_song]
  rw [if_pos (by simp [horder])]

theorem C10_witness :
    next_song initState =
      ({ initState with
         played_count := 1,
         show_hint := false,
         current_winners := [],
         showing_answer := false,
         is_playing := false },
       "Game finished".data) :=
  C10_next_while_idle initState (by decide)

/-- C6 counterexample: `start_game` over the empty catalog produces an empty
play order but sets the playing flag, so the session is left in the Playing
phase, not Finished. -/
theorem C6_counterexample :
    (start_game [] initState).song_order = [] ∧
    (start_game [] initState).is_playing = true ∧
    phase (start_game [] initState) = Phase.Playing := by decide

/-- C6 amended: `start_game` over the empty catalog produces an empty play
order and zero played songs but still sets `is_playing`, leaving the
session in the Playing phase; no guess has any effect (the current index is
out of range of the empty catalog), and only the first subsequent
`next_song` clears the playing flag. -/
theorem C6_empty_catalog_start (st : GameState) :
    (start_game [] st).song_order = [] ∧
    (start_game [] st).played_count = 0 ∧
    (start_game [] st).is_playing = true ∧
    phase (start_game [] st) = Phase.Playing ∧
    (∀ u a, handle_game_answer [] (start_game [] st) u a = start_game [] st) ∧
    (next_song (start_game [] st)).1.is_playing = false := by
  refine ⟨rfl, rfl, rfl, by simp [phase, start_game], ?_, ?_⟩
  · intro u a
    exact handle_game_answer_noop _ _ _ _ (Or.inr (Or.inr (Or.inl (by simp))))
  · simp only [next_song]
    rw [if_pos (by simp [start_game])]

/-- Reference function for C7: the complete parse of a list of rows,
numbering from `idx`. -/
def loadFrom (idx : Nat) : List CsvRow → List Song
  | [] => []
  | r :: rest => songOfRow idx r :: loadFrom (idx + 1) rest

theorem load_songs_aux_all (rows : List CsvRow) :
    ∀ (acc : List Song) (idx : Nat),
      load_songs_aux acc idx (rows.map some) =
        (acc ++ loadFrom idx rows, acc.length + rows.length) := by
  induction rows with
  | nil => intro acc idx; simp [load_songs_aux, loadFrom]
  | cons r rest ih =>
      intro acc idx
      simp only [List.map_cons, load_songs_aux, loadFrom]
      rw [ih]
      simp
      omega

theorem load_songs_aux_fail (rows : List CsvRow) (tail : List (Option CsvRow)) :
    ∀ (acc : List Song) (idx : Nat),
      load_songs_aux acc idx (rows.map some ++ none :: tail) =
        (acc ++ loadFrom idx rows, 0) := by
  induction rows with
  | nil => intro acc idx; simp [load_songs_aux, loadFrom]
  | cons r rest ih =>
      intro acc idx
      simp only [List.map_cons, List.cons_append, load_songs_aux, loadFrom,
        List.append_eq]
      rw [ih]
      simp

/-- C7 counterexample: a load that fails after the first row leaves the
catalog holding exactly the one song parsed before the failure — neither
empty nor the complete two-song catalog, so a partial catalog is
observable. -/
theorem C7_counterexample :
    (load_songs [some rowA, none, some rowB]).1 ≠ [] ∧
    (load_songs [some rowA, none, some rowB]).1 ≠
      (load_songs [some rowA, some rowB]).1 ∧
    load_songs [some rowA, none, some rowB] = ([songOfRow 0 rowA], 0) := by
  decide

/-- C7 amended: a reload resets the catalog and appends row by row: a load
in which every row reads successfully installs the complete new list (and
returns its count), but a load that fails at some row leaves the catalog as
the prefix of songs parsed before the failure (and returns 0). -/
theorem C7_load_replaces_catalog (rows : List CsvRow)
    (tail : List (Option CsvRow)) :
    load_songs (rows.map some) = (loadFrom 0 rows, rows.length) ∧
    load_songs (rows.map some ++ none :: tail) = (loadFrom 0 rows, 0) := by
  constructor
  · simpa using load_songs_aux_all rows [] 0
  · simpa using load_songs_aux_fail rows tail [] 0

/-- C5: querying the current song's answer forces the answer page flag on
(the RevealingAnswer phase), after which every guess on either path is
rejected with an informational result and no state change, regardless of
correctness, until `next_song` clears the flag. -/
theorem C5_reveal_gates_guesses (songs : List Song) (st : GameState)
    (u a : PyStr) (h : st.current_song_index < songs.length) :
    get_current_song_answer songs st =
      some ({ song := songs.getD st.current_song_index defaultSong,
              winner := joinWinners st.current_winners },
            { st with showing_answer := true }) ∧
    check_answer songs { st with showing_answer := true } u a =
      some ({ is_correct := false, username := u, answer := a,
              message := some msgShowingAnswer },
            { st with showing_answer := true }) ∧
    handle_game_answer songs { st with showing_answer := true } u a =
      { st with showing_answer := true } ∧
    (next_song { st with showing_answer := true }).1.showing_answer = false := by
  refine ⟨?_, ?_, ?_, ?_⟩
  · simp only [get_current_song_answer]
    rw [if_neg (by omega)]
  · simp only [check_answer]
    rw [if_neg (by simp; omega)]
    rw [if_pos (by simp)]
  · exact handle_game_answer_noop _ _ _ _ (Or.inr (Or.inl (by simp)))
  · simp only [next_song]
    split <;> rfl

theorem C5_witness :
    (next_song { initState with showing_answer := true }).1.showing_answer =
      false :=
  (C5_reveal_gates_guesses [songDyn] initState "bob".data "x".data
    (by decide)).2.2.2

/-- C1 counterexample: after `next_song` past the last song the session is
Finished, yet `show_hint` still flips the hint flag, and the API guess path
`check_answer` still accepts a correct guess for the last song, awarding a
point and recording a winner. -/
theorem C1_counterexample :
    phase oneSongFinished = Phase.Finished ∧
    show_hint_op oneSongFinished ≠ oneSongFinished ∧
    check_answer [songDyn] oneSongFinished "bob".data "dynamite".data =
      some ({ is_correct := true, username := "bob".data,
              answer := "dynamite".data, message := none },
            { oneSongFinished with
              players := [{ username := "bob".data, score := 1 }],
              current_winners := ["bob".data] }) := by decide

/-- C1 amended: after the play order is exhausted `next_song` reports
"Game finished" and clears the playing flag, and every chat-routed guess
(`handle_game_answer`) is then a no-op; but `show_hint` still sets the hint
flag unconditionally and the API path `check_answer` never consults the
playing flag, so those two can still change state after Finished. -/
theorem C1_finished_chat_inert (songs : List Song) (st : GameState)
    (h : st.song_order.length ≤ st.played_count + 1) :
    (next_song st).1.is_playing = false ∧
    (next_song st).2 = "Game finished".data ∧
    (∀ u a, handle_game_answer songs (next_song st).1 u a = (next_song st).1) ∧
    show_hint_op (next_song st).1 =
      { (next_song st).1 with show_hint := true } := by
  have hfin : (next_song st).1.is_playing = false ∧
      (next_song st).2 = "Game finished".data := by
    simp only [next_song]
    rw [if_pos (by simpa using h)]
    exact ⟨rfl, rfl⟩
  refine ⟨hfin.1, hfin.2, ?_, rfl⟩
  intro u a
  exact handle_game_answer_noop _ _ _ _ (Or.inl hfin.1)

theorem C1_witness :
    (next_song (start_game [0] initState)).1.is_playing = false ∧
    (next_song (start_game [0] initState)).2 = "Game finished".data ∧
    (∀ u a, handle_game_answer [songDyn]
        (next_song (start_game [0] initState)).1 u a =
      (next_song (start_game [0] initState)).1) ∧
    show_hint_op (next_song (start_game [0] initState)).1 =
      { (next_song (start_game [0] initState)).1 with show_hint := true } :=
  C1_finished_chat_inert [songDyn] (start_game [0] initState) (by decide)

theorem getD_mem_of_lt {l : List Song} {i : Nat} (h : i < l.length) :
    l.getD i defaultSong ∈ l := by
  rw [List.getD_eq_getElem?_getD, List.getElem?_eq_getElem h]
  exact List.getElem_mem h

/-- C8 counterexample: `check_answer` does not reject an empty (post-trim)
guess before evaluation: against a song whose accepted answer is a single
space (whose normalized form is empty), the empty guess matches, awards a
point and records a winner. -/
theorem C8_counterexample :
    pyStrip " ".data = [] ∧
    check_answer [spaceTitleSong] playingState "alice".data " ".data =
      some ({ is_correct := true, username := "alice".data,
              answer := " ".data, message := none },
            { playingState with
              players := [{ username := "alice".data, score := 1 }],
              current_winners := ["alice".data] }) := by decide

/-- C8 amended: the chat path rejects an empty (post-trim) guess before
evaluation; the API path `check_answer` does evaluate it, but the empty
normalized guess can only match a title whose normalized form is empty, and
the catalog loader never produces such a title — so on every loader-produced
catalog an empty guess never matches, never awards, never records a winner,
and yields an informational non-error result. -/
theorem C8_empty_guess (songs : List Song) (st : GameState) (u a : PyStr)
    (hempty : pyStrip a = [])
    (htitles : ∀ s ∈ songs, ∀ t ∈ s.title, normalize t ≠ []) :
    handle_game_answer songs st u a = st ∧
    (check_answer songs st u a = none ∨
      ∃ r, check_answer songs st u a = some (r, st) ∧ r.is_correct = false) ∧
    (∀ rows, ∀ s ∈ (load_songs rows).1, ∀ t ∈ s.title, normalize t ≠ []) := by
  refine ⟨handle_game_answer_noop _ _ _ _
      (Or.inr (Or.inr (Or.inr (Or.inl hempty)))), ?_,
    fun rows => load_songs_titles rows⟩
  rcases check_answer_cases songs st u a with
    ⟨_, he⟩ | ⟨r, he, hr⟩ | ⟨hlt, _, _, _, hany, _⟩
  · exact Or.inl he
  · exact Or.inr ⟨r, he, hr⟩
  · exfalso
    rw [List.any_eq_true] at hany
    obtain ⟨t, ht, heq⟩ := hany
    rw [hempty] at heq
    have hnorm : normalize t = [] := by
      have := of_decide_eq_true heq
      simpa [pyLower, despace] using this.symm
    exact htitles _ (getD_mem_of_lt hlt) t ht hnorm

theorem C8_witness :
    handle_game_answer [songDyn] initState "bob".data " ".data = initState :=
  (C8_empty_guess [songDyn] initState "bob".data " ".data (by decide)
    (by decide)).1

/-- The winners-list invariant of C2: at most 3 winners for the current
song, no username twice. -/
def WinnersInv (st : GameState) : Prop :=
  st.current_winners.length ≤ 3 ∧ st.current_winners.Nodup

theorem winnersInv_append {st : GameState} {u : PyStr} {ps : List Player}
    (h : WinnersInv st) (hlen : st.current_winners.length < 3)
    (hu : u ∉ st.current_winners) :
    WinnersInv { st with
                 players := ps,
                 current_winners := st.current_winners ++ [u] } := by
  constructor
  · simp only [List.length_append, List.length_singleton]
    omega
  · simp [List.nodup_append, h.2, hu]

/-- C2: in every state satisfying the winners invariant, each mutating
operation preserves it; with 3 winners recorded a further guess (correct or
not, on either path) leaves the winners unchanged, and a username already
among the winners is rejected on either path even when its guess is
correct. -/
theorem C2_winners_invariant (songs : List Song) (st : GameState)
    (u a : PyStr) (perm : List Nat) (h : WinnersInv st) :
    WinnersInv (handle_game_answer songs st u a) ∧
    (∀ r st', check_answer songs st u a = some (r, st') → WinnersInv st') ∧
    WinnersInv (next_song st).1 ∧
    WinnersInv (show_hint_op st) ∧
    WinnersInv (start_game perm st) ∧
    (∀ v st', get_current_song_answer songs st = some (v, st') →
      WinnersInv st') ∧
    WinnersInv (reset_scores st) ∧
    (st.current_winners.length = 3 →
      handle_game_answer songs st u a = st ∧
      ∀ r st', check_answer songs st u a = some (r, st') → st' = st) ∧
    (u ∈ st.current_winners →
      handle_game_answer songs st u a = st ∧
      ∀ r st', check_answer songs st u a = some (r, st') → st' = st) := by
  obtain ⟨hlen, hnd⟩ := h
  refine ⟨?_, ?_, ?_, ⟨hlen, hnd⟩, ⟨by simp [start_game], by simp [start_game]⟩,
    ?_, ⟨by simp [reset_scores], by simp [reset_scores]⟩, ?_, ?_⟩
  · rcases handle_game_answer_cases songs st u a with
      he | ⟨_, _, _, _, h5, h6, he⟩
    · rw [he]; exact ⟨hlen, hnd⟩
    · rw [he]; exact winnersInv_append ⟨hlen, hnd⟩ h5 h6
  · intro r st' hsome
    rcases check_answer_cases songs st u a with
      ⟨_, he⟩ | ⟨r', he, _⟩ | ⟨_, _, h3, h4, _, he⟩
    · rw [he] at hsome; cases hsome
    · rw [he] at hsome
      rw [Option.some.injEq, Prod.mk.injEq] at hsome
      rw [← hsome.2]
      exact ⟨hlen, hnd⟩
    · rw [he] at hsome
      rw [Option.some.injEq, Prod.mk.injEq] at hsome
      rw [← hsome.2]
      exact winnersInv_append ⟨hlen, hnd⟩ h3 h4
  · refine ⟨?_, ?_⟩ <;> rw [next_song_winners] <;> simp
  · intro v st' hsome
    rw [get_current_song_answer_state songs st hsome]
    exact ⟨hlen, hnd⟩
  · intro h3
    constructor
    · exact handle_game_answer_noop _ _ _ _
        (Or.inr (Or.inr (Or.inr (Or.inr (Or.inl (by omega))))))
    · intro r st' hsome
      rcases check_answer_cases songs st u a with
        ⟨_, he⟩ | ⟨r', he, _⟩ | ⟨_, _, hlt3, _, _, he⟩
      · rw [he] at hsome; cases hsome
      · rw [he] at hsome
        rw [Option.some.injEq, Prod.mk.injEq] at hsome
        exact hsome.2.symm
      · omega
  · intro hmem
    constructor
    · exact handle_game_answer_noop _ _ _ _
        (Or.inr (Or.inr (Or.inr (Or.inr (Or.inr hmem)))))
    · intro r st' hsome
      rcases check_answer_cases songs st u a with
        ⟨_, he⟩ | ⟨r', he, _⟩ | ⟨_, _, _, hnm, _, he⟩
      · rw [he] at hsome; cases hsome
      · rw [he] at hsome
        rw [Option.some.injEq, Prod.mk.injEq] at hsome
        exact hsome.2.symm
      · exact absurd hmem hnm

theorem C2_witness :
    WinnersInv (handle_game_answer [songDyn] playingState
      "bob".data "dynamite".data) :=
  (C2_winners_invariant [songDyn] playingState "bob".data "dynamite".data []
    (by constructor <;> simp [playingState, initState])).1

end ChzzkQuiz
